import Mathlib

/-!
Verification of the resolution-and-harvest pipeline of the product-analyzer
repository (FastAPI backend + MCP server).  The Python sources are embedded
shallowly: pure string manipulation is translated to Lean functions over
List Char / String, stateful pieces (the in-memory identity cache) become
explicit state passing, fallible code returns Except, and interactions with
the outside world (the headless browser, the plain-HTTP client, the Pillow
image library, the filesystem) are abstracted as explicit oracle parameters
describing their outcome, while every piece of control flow and data
manipulation written in the repository itself is translated faithfully.
-/

namespace SWMCP

/-! ## Python string primitives

Helpers mirroring the Python string operations used by the sources.
Character-class predicates follow Python's ASCII behaviour; the sources only
ever feed product names and URL fragments through them. -/

/-- Python whitespace as used by str.strip and the regex class \s
(space, tab, newline, carriage return, vertical tab, form feed). -/
def pyIsSpace (c : Char) : Bool :=
  c = ' ' || c = '\t' || c = '\n' || c = '\r' || c = '\x0b' || c = '\x0c'

/-- Python str.strip on a character list: drop whitespace from both ends. -/
def stripL (l : List Char) : List Char :=
  ((l.dropWhile pyIsSpace).reverse.dropWhile pyIsSpace).reverse

/-- Python str.strip. -/
def pyStrip (s : String) : String :=
  String.mk (stripL s.toList)

/-- A string that is empty or whitespace-only (falsy after str.strip). -/
def isBlank (s : String) : Bool :=
  s.toList.all pyIsSpace

/-- Python list-of-characters prefix test. -/
def isPrefixL : List Char → List Char → Bool
  | [], _ => true
  | _ :: _, [] => false
  | c :: cs, d :: ds => c = d && isPrefixL cs ds

/-- Python substring containment (the in operator on str). -/
def isInfixL (pat : List Char) : List Char → Bool
  | [] => isPrefixL pat []
  | c :: rest => isPrefixL pat (c :: rest) || isInfixL pat rest

/-- Python s.startswith(pre). -/
def pyStartsWith (s pre : String) : Bool :=
  isPrefixL pre.toList s.toList

/-- Python sub in s. -/
def pyContains (s sub : String) : Bool :=
  isInfixL sub.toList s.toList

/-- Python str.lower, mapping each character to lower case. -/
def pyLower (s : String) : String :=
  String.mk (s.toList.map Char.toLower)

/-- Python str.replace over character lists: replace every non-overlapping
occurrence of pat by rep, scanning left to right.  The sources only call it
with non-empty literal patterns. -/
def replaceL (pat rep : List Char) : List Char → List Char
  | [] => []
  | c :: rest =>
    if pat ≠ [] && isPrefixL pat (c :: rest) then
      rep ++ replaceL pat rep (rest.drop (pat.length - 1))
    else
      c :: replaceL pat rep rest
termination_by l => l.length
decreasing_by
  · simp only [List.length_cons, List.length_drop]
    omega
  · simp only [List.length_cons]
    omega

/-- Python s.replace(pat, rep). -/
def pyReplace (s pat rep : String) : String :=
  String.mk (replaceL pat.toList rep.toList s.toList)

/-- Python s.split(",") for the single-character separator: always returns at
least one (possibly empty) field. -/
def splitComma : List Char → List (List Char)
  | [] => [[]]
  | c :: rest =>
    if c = ',' then
      [] :: splitComma rest
    else
      match splitComma rest with
      | [] => [[c]]
      | s :: ss => (c :: s) :: ss

/-- Interpret a run of decimal digits as a number, most significant first. -/
def digitsToNat (l : List Char) : Nat :=
  l.foldl (fun acc c => acc * 10 + (c.toNat - '0'.toNat)) 0

/-! ## new_single_page_crawler.py: choose_from_srcset

Source: src/fastapi/app/new_single_page_crawler.py lines 37-52 (the
identical function also appears in src/new_single_page_crawler.py).
Each comma-separated candidate is stripped; when it contains a space it is
rsplit at the last space into a URL part and a size token, and the size token
is matched against the regex (\d+)(w|x) anchored at its start; the captured
digits give the weight, 0 when the regex does not match.  Candidates without
a space get weight 0.  The list is then stable-sorted descending by weight
and the first URL returned, or the empty string when no candidate exists. -/

/-- A parsed srcset candidate: weight and URL. -/
structure Cand where
  weight : Nat
  url : String
  deriving DecidableEq, Repr

/-- Weight of a size token: re.match (backslash-d+)(w|x) against it.  The
regex is anchored at the start only, so trailing garbage after the w/x is
accepted; with a greedy digit run, a match exists exactly when the maximal
leading digit run is non-empty and immediately followed by w or x. -/
def sizeWeight (sz : List Char) : Nat :=
  let ds := sz.takeWhile Char.isDigit
  if ds ≠ [] && ((sz.drop ds.length).head? = some 'w' || (sz.drop ds.length).head? = some 'x') then
    digitsToNat ds
  else
    0

/-- Python part.rsplit(" ", 1) for a part known to contain a space: the pair
(text before the last space, text after it). -/
def rsplitLastSpace (p : List Char) : List Char × List Char :=
  let sz := (p.reverse.takeWhile (fun c => c ≠ ' ')).reverse
  (p.take (p.length - sz.length - 1), sz)

/-- Parse one stripped srcset part into a candidate, as the loop body of
choose_from_srcset does. -/
def parseCandChars (raw : List Char) : Cand :=
  let part := stripL raw
  if part.contains ' ' then
    let (u, sz) := rsplitLastSpace part
    { weight := sizeWeight sz, url := String.mk (stripL u) }
  else
    { weight := 0, url := String.mk part }

/-- All candidates of a srcset string, in source order. -/
def parseCands (srcset : String) : List Cand :=
  (splitComma srcset.toList).map parseCandChars

/-- Stable insertion into a descending-by-weight list: the new element, which
originates earlier in the input, goes before every element of equal weight.
This realizes Python's stable list.sort(key, reverse=True). -/
def insertDesc (x : Cand) : List Cand → List Cand
  | [] => [x]
  | y :: ys => if x.weight ≥ y.weight then x :: y :: ys else y :: insertDesc x ys

/-- Stable descending sort by weight (Python cands.sort(key, reverse=True)). -/
def sortDescStable : List Cand → List Cand
  | [] => []
  | x :: xs => insertDesc x (sortDescStable xs)

/-- The try-block of choose_from_srcset.  Every operation it performs (split,
strip, rsplit after a containment check, the anchored regex match, int on a
digit run, stable sort, guarded indexing) is total in this embedding, so the
body never raises; the result of the Except models the Python exception
channel of the surrounding try. -/
def chooseFromSrcsetBody (srcset : String) : Except String String :=
  let cands := sortDescStable (parseCands srcset)
  Except.ok (match cands with
    | [] => ""
    | c :: _ => c.url)

/-- Source function choose_from_srcset: the try-block result, with any
exception converted to the empty string by the except handler. -/
def choose_from_srcset (srcset : String) : String :=
  match chooseFromSrcsetBody srcset with
  | Except.ok r => r
  | Except.error _ => ""

/-- Specification-side selector, written after the spec's words: the earliest
candidate attaining the maximal weight (ties keep the earlier entry). -/
def earliestMaxWeight : List Cand → Option Cand
  | [] => none
  | c :: rest =>
    match earliestMaxWeight rest with
    | none => some c
    | some d => if d.weight > c.weight then some d else some c

/-! ## normalize_product_name.py: identity data and tier control flow -/

/-- The model/url pair a product name resolves to (the values of the
product_name_to_model dictionary). -/
structure ProductInfo where
  model : String
  url : String
  deriving DecidableEq, Repr

/-- Outcome of the Playwright block of _search_danawa_internal (lines
175-357): either the block raised (navigation/timeout/driver error, caught by
the two except arms at lines 354-357) or it completed, leaving
playwright_result either filled or still None. -/
inductive BrowserOutcome where
  | raised (err : String)
  | completed (result : Option ProductInfo)
  deriving DecidableEq, Repr

/-- Whether the browser tier raised. -/
def browserRaised : BrowserOutcome → Bool
  | BrowserOutcome.raised _ => true
  | BrowserOutcome.completed _ => false

/-- The value playwright_result holds after the try/except around the
Playwright block: None when the block raised (the exception is logged and
swallowed), otherwise whatever the block assigned. -/
def browserResult : BrowserOutcome → Option ProductInfo
  | BrowserOutcome.raised _ => none
  | BrowserOutcome.completed r => r

/-- Result of one call to _search_danawa_internal together with the
observable fact whether the requests fallback tier was entered. -/
structure SearchTrace where
  result : Option ProductInfo
  fallbackInvoked : Bool
  deriving DecidableEq, Repr

/-- Source function _search_danawa_internal (lines 154-367), with the
Playwright block's outcome and the outcome of _search_with_requests supplied
as oracles.  After the try/except the code returns playwright_result when it
is truthy and otherwise always falls back to the requests tier, whose own
exceptions are caught and converted to None. -/
def searchDanawaInternal (b : BrowserOutcome)
    (fb : Except String (Option ProductInfo)) : SearchTrace :=
  let playwright_result : Option ProductInfo :=
    match b with
    | BrowserOutcome.completed r => r
    | BrowserOutcome.raised _ => none
  match playwright_result with
  | some r => { result := some r, fallbackInvoked := false }
  | none =>
    match fb with
    | Except.ok r => { result := r, fallbackInvoked := true }
    | Except.error _ => { result := none, fallbackInvoked := true }

/-- Source function search_danawa_and_extract_model (lines 370-395): when an
asyncio loop is running, the work is submitted to a single-worker executor;
when the loop probe raises RuntimeError, the work runs directly; and when the
offloaded future raises or times out, the except arm logs the error and runs
the work directly as well.  The direct run is the modelled
_search_danawa_internal with its own oracles. -/
def search_danawa_and_extract_model (loopRunning : Bool)
    (offload : Except String (Option ProductInfo))
    (b : BrowserOutcome) (fb : Except String (Option ProductInfo)) :
    Except String (Option ProductInfo) :=
  if loopRunning then
    match offload with
    | Except.ok r => Except.ok r
    | Except.error _ => Except.ok (searchDanawaInternal b fb).result
  else
    Except.ok (searchDanawaInternal b fb).result

/-! ## normalize_product_name.py: normalize_search_keyword (lines 15-71) -/

/-- Python's seen-set deduplication loop (lines 63-69): keep the first
occurrence of every string, preserving order. -/
def dedupGo (seen : List String) : List String → List String
  | [] => []
  | x :: xs => if x ∈ seen then dedupGo seen xs else x :: dedupGo (x :: seen) xs

/-- Deduplicate keeping first occurrences (seen starts empty). -/
def dedupKeepFirst (l : List String) : List String :=
  dedupGo [] l

/-- Capture group of re.match applied after a fixed two-character prefix:
the pattern is prefix, then backslash-s star, then (.+).  With greedy
whitespace and backtracking, when some non-whitespace character remains the
group runs from the first non-whitespace character up to the first newline;
when the remainder is pure whitespace the regex backtracks to the last
non-newline whitespace character and captures exactly it; when every
remaining character is a newline (or nothing remains) the match fails. -/
def dotPlusAfterSpaces (t : List Char) : Option (List Char) :=
  let r := t.dropWhile pyIsSpace
  if r.isEmpty then
    match (t.filter (fun c => c != '\n')).getLast? with
    | some c => some [c]
    | none => none
  else
    some (r.takeWhile (fun c => c != '\n'))

/-- Samsung brand-normalization variants (lines 29-52).  The three branches
form an if/elif/elif chain: a name starting with 삼성 without 전자 gains the
spelled-out manufacturer in both spacings; otherwise a concatenated 삼성전자
is respaced, or a spaced 삼성 전자 is concatenated. -/
def samsungVariants (s : String) : List String :=
  if pyStartsWith s "삼성" && !(pyContains s "전자") then
    match dotPlusAfterSpaces (s.toList.drop 2) with
    | some rest =>
      let n1 := String.mk (stripL ("삼성 전자 ".toList ++ rest))
      let n2 := String.mk (stripL ("삼성전자 ".toList ++ rest))
      (if n1 ≠ s then [n1] else []) ++ (if n2 ≠ s ∧ n2 ≠ n1 then [n2] else [])
    | none => []
  else if pyContains s "삼성전자" && !(pyContains s "삼성 전자") then
    let n := pyReplace s "삼성전자" "삼성 전자"
    if n ≠ s then [n] else []
  else if pyContains s "삼성 전자" then
    let n := pyReplace s "삼성 전자" "삼성전자"
    if n ≠ s then [n] else []
  else []

/-- Match of the anchored case-insensitive prefix alternation (LG|lg|엘지):
the first two characters lowercased are lg, or are 엘지 verbatim. -/
def lgPrefixMatch (s : String) : Bool :=
  (s.toList.take 2).map Char.toLower == ['l', 'g'] || s.toList.take 2 == ['엘', '지']

/-- LG brand-normalization variant (lines 54-61): an LG-prefixed name without
전자 gains the LG전자 manufacturer prefix. -/
def lgVariants (s : String) : List String :=
  if lgPrefixMatch s && !(pyContains s "전자") then
    match dotPlusAfterSpaces (s.toList.drop 2) with
    | some rest =>
      let n := String.mk (stripL ("LG전자 ".toList ++ rest))
      if n ≠ s then [n] else []
    | none => []
  else []

/-- Source function normalize_search_keyword (lines 15-71): the original name
first, then the Samsung variants, then the LG variant, deduplicated keeping
first occurrences. -/
def normalize_search_keyword (product_name : String) : List String :=
  dedupKeepFirst ([product_name] ++ samsungVariants product_name ++ lgVariants product_name)

/-! ## Identity cache and convert_product_name_to_model

The global dictionary product_name_to_model is modelled as an
insertion-ordered association list; Python dict assignment overwrites the
value of an existing key in place and otherwise appends. -/

/-- The in-memory identity registry. -/
abbrev Cache : Type := List (String × ProductInfo)

/-- Dictionary assignment product_name_to_model[k] = v. -/
def cachePut (c : Cache) (k : String) (v : ProductInfo) : Cache :=
  match c with
  | [] => [(k, v)]
  | p :: rest => if p.1 == k then (k, v) :: rest else p :: cachePut rest k v

/-- First value whose key satisfies the predicate, scanning insertion order. -/
def findEntry (c : Cache) (pred : String → Bool) : Option ProductInfo :=
  match c with
  | [] => none
  | p :: rest => if pred p.1 then some p.2 else findEntry rest pred

/-- Source function _lookup_product_info of mcp_server.py (lines 227-235):
exact dictionary lookup first, then a scan comparing lowercased keys. -/
def lookup_product_info (c : Cache) (product_name : String) : Option ProductInfo :=
  match findEntry c (fun key => key == product_name) with
  | some v => some v
  | none => findEntry c (fun key => pyLower key == pyLower product_name)

/-- Source function convert_product_name_to_model (lines 398-431): exact
cache hit, then case-insensitive cache hit, then the keyword variants are
searched in order with search_danawa_and_extract_model (supplied here as an
oracle; the modelled search never raises, see the C3 theorems) until one
yields a result; None when all fail. -/
def convert_product_name_to_model (c : Cache)
    (search : String → Option ProductInfo) (product_name : String) :
    Option ProductInfo :=
  match findEntry c (fun key => key == product_name) with
  | some v => some v
  | none =>
    match findEntry c (fun key => pyLower key == pyLower product_name) with
    | some v => some v
    | none => (normalize_search_keyword product_name).findSome? search

/-! ## image_encoder.py: optimize_image_bytes (lines 56-105) -/

/-- The re-encoding loop of optimize_image_bytes (lines 89-101): walk the
quality ladder, re-encode, and stop as soon as the encoded size fits the
budget or quality 50 is reached.  The encoder itself (Pillow's img.save on
the converted and resized image) is an oracle. -/
def qualityLoop (encodeAt : Nat → List Nat) (max_bytes : Nat) : List Nat → List Nat
  | [] => []
  | q :: rest =>
    let out := encodeAt q
    if out.length ≤ max_bytes || q == 50 then out else qualityLoop encodeAt max_bytes rest

set_option linter.unusedVariables false in
/-- Source function optimize_image_bytes: input not exceeding the byte budget
is returned untouched; otherwise Pillow decodes, converts and resizes the
image and the quality loop re-encodes it as JPEG; any Pillow failure
(pilEncode = none) falls back to the original bytes and mime type.  The
Pillow pipeline is abstracted as an optional encoder oracle; max_dimension
only influences that external resize. -/
def optimize_image_bytes (pilEncode : Option (Nat → List Nat))
    (raw_bytes : List Nat) (mime_type : String)
    (max_bytes max_dimension : Nat) : List Nat × String × Nat × Nat :=
  let original_size := raw_bytes.length
  if original_size ≤ max_bytes then
    (raw_bytes, mime_type, original_size, original_size)
  else
    match pilEncode with
    | none => (raw_bytes, mime_type, original_size, original_size)
    | some enc =>
      let out := qualityLoop enc max_bytes [85, 80, 75, 70, 65, 60, 55, 50]
      (out, "image/jpeg", original_size, out.length)

/-! ## Theorems for C4 and C10 (choose_from_srcset) -/

theorem insertDesc_ne_nil (x : Cand) (l : List Cand) : insertDesc x l ≠ [] := by
  cases l with
  | nil => simp [insertDesc]
  | cons y ys =>
    simp only [insertDesc]
    split <;> simp

theorem sortDescStable_head (l : List Cand) :
    (sortDescStable l).head? = earliestMaxWeight l := by
  induction l with
  | nil => rfl
  | cons c xs ih =>
    simp only [sortDescStable, earliestMaxWeight]
    cases hxs : sortDescStable xs with
    | nil =>
      rw [hxs] at ih
      simp only [List.head?_nil] at ih
      rw [← ih]
      simp [insertDesc]
    | cons d ds =>
      rw [hxs] at ih
      simp only [List.head?_cons] at ih
      rw [← ih]
      simp only [insertDesc]
      by_cases h : c.weight ≥ d.weight
      · rw [if_pos h]
        have : ¬ d.weight > c.weight := by omega
        simp [this]
      · rw [if_neg h]
        have : d.weight > c.weight := by omega
        simp [this, insertDesc_ne_nil]

/-- C4: choose_from_srcset parses each comma-separated candidate's trailing
size token as an integer weight (0 when absent or unparseable, as embedded in
parseCands) and returns the URL of the earliest maximum-weight candidate;
in particular it picks "b.jpg" from "a.jpg 100w, b.jpg 400w, c.jpg" and
"a.jpg" from "a.jpg 200w, b.jpg 200w". -/
theorem choose_from_srcset_picks_earliest_max :
    (∀ s : String,
      choose_from_srcset s = ((earliestMaxWeight (parseCands s)).map Cand.url).getD "")
    ∧ choose_from_srcset "a.jpg 100w, b.jpg 400w, c.jpg" = "b.jpg"
    ∧ choose_from_srcset "a.jpg 200w, b.jpg 200w" = "a.jpg" := by
  refine ⟨fun s => ?_, by decide, by decide⟩
  have h := sortDescStable_head (parseCands s)
  unfold choose_from_srcset chooseFromSrcsetBody
  cases hs : sortDescStable (parseCands s) with
  | nil =>
    rw [hs] at h
    simp only [List.head?_nil] at h
    rw [← h]
    rfl
  | cons c cs =>
    rw [hs] at h
    simp only [List.head?_cons] at h
    rw [← h]
    rfl

/-- C10: for every input string, choose_from_srcset terminates with a string
and never raises: the try-block body always yields an ok result (no internal
parsing exception is reachable), and the function returns exactly that value;
the except handler mapping an exception to the empty string is the
surrounding match of choose_from_srcset. -/
theorem choose_from_srcset_never_raises :
    ∀ s : String, ∃ r : String,
      chooseFromSrcsetBody s = Except.ok r ∧ choose_from_srcset s = r :=
  fun _ => ⟨_, rfl, rfl⟩

/-! ## Theorems for C1 (fallback-tier trigger) -/

/-- C1 counterexample: a browser-tier run that completes without raising and
finds no model code still invokes the plain-HTTP fallback tier. -/
theorem fallback_invoked_without_browser_error :
    browserRaised (BrowserOutcome.completed none) = false
    ∧ (searchDanawaInternal (BrowserOutcome.completed none)
        (Except.ok none)).fallbackInvoked = true := by
  decide

/-- C1 amended: the requests fallback tier of _search_danawa_internal is
invoked exactly when the browser tier produced no result, whether it raised
(navigation/timeout/driver error) or completed without finding a model code. -/
theorem fallback_invoked_iff_browser_empty (b : BrowserOutcome)
    (fb : Except String (Option ProductInfo)) :
    (searchDanawaInternal b fb).fallbackInvoked = (browserResult b).isNone := by
  cases b with
  | raised e => cases fb <;> rfl
  | completed r =>
    cases r with
    | none => cases fb <;> rfl
    | some v => rfl

/-! ## Theorems for C3 (offload-worker failure handling) -/

/-- C3 counterexample: with an asyncio loop running and the offloaded future
failing, search_danawa_and_extract_model returns the direct rerun's value as
a normal result instead of re-raising the offload error. -/
theorem offload_error_not_reraised :
    search_danawa_and_extract_model true (Except.error "TimeoutError")
        (BrowserOutcome.completed (some ⟨"AX060CG500G", "http://prod.danawa.com/info?pcode=1"⟩))
        (Except.ok none)
      = Except.ok (some ⟨"AX060CG500G", "http://prod.danawa.com/info?pcode=1"⟩)
    ∧ (Except.ok (some (⟨"AX060CG500G", "http://prod.danawa.com/info?pcode=1"⟩ : ProductInfo))
        : Except String (Option ProductInfo)) ≠ Except.error "TimeoutError" :=
  ⟨rfl, fun h => Except.noConfusion h⟩

/-- C3 amended: when the offload worker fails (the submitted future raises or
times out), search_danawa_and_extract_model swallows the error and re-executes
the synchronous search directly, returning that rerun's result to the caller. -/
theorem offload_error_retries_directly (e : String) (b : BrowserOutcome)
    (fb : Except String (Option ProductInfo)) :
    search_danawa_and_extract_model true (Except.error e) b fb
      = Except.ok (searchDanawaInternal b fb).result := by
  rfl

/-! ## Lemmas and theorems for C6 (identity cache) -/

theorem findEntry_cachePut_self (c : Cache) (n : String) (v : ProductInfo) :
    findEntry (cachePut c n v) (fun key => key == n) = some v := by
  induction c with
  | nil => simp [cachePut, findEntry]
  | cons p rest ih =>
    simp only [cachePut]
    by_cases h : (p.1 == n)
    · rw [if_pos h]
      simp [findEntry]
    · rw [if_neg h]
      simp only [findEntry]
      rw [if_neg (by simpa using h)]
      exact ih

theorem mem_cachePut (c : Cache) (n : String) (v : ProductInfo)
    (p : String × ProductInfo) (hp : p ∈ cachePut c n v) : p = (n, v) ∨ p ∈ c := by
  induction c with
  | nil =>
    simp only [cachePut, List.mem_singleton] at hp
    exact Or.inl hp
  | cons q rest ih =>
    simp only [cachePut] at hp
    by_cases h : (q.1 == n)
    · rw [if_pos h] at hp
      rcases List.mem_cons.mp hp with rfl | h2
      · exact Or.inl rfl
      · exact Or.inr (List.mem_cons_of_mem _ h2)
    · rw [if_neg h] at hp
      rcases List.mem_cons.mp hp with rfl | h2
      · exact Or.inr (List.mem_cons_self _ _)
      · rcases ih h2 with h3 | h3
        · exact Or.inl h3
        · exact Or.inr (List.mem_cons_of_mem _ h3)

theorem findEntry_eq_none (c : Cache) (pred : String → Bool)
    (h : ∀ p ∈ c, pred p.1 = false) : findEntry c pred = none := by
  induction c with
  | nil => rfl
  | cons p rest ih =>
    simp only [findEntry]
    rw [if_neg (by simp [h p (List.mem_cons_self _ _)])]
    exact ih (fun q hq => h q (List.mem_cons_of_mem _ hq))

theorem findEntry_cachePut_ci (c : Cache) (n m : String) (v : ProductInfo)
    (hK : ∀ p ∈ c, p.1 ≠ n → pyLower p.1 ≠ pyLower n)
    (hlow : pyLower m = pyLower n) :
    findEntry (cachePut c n v) (fun key => pyLower key == pyLower m) = some v := by
  induction c with
  | nil =>
    simp [cachePut, findEntry, hlow]
  | cons p rest ih =>
    simp only [cachePut]
    by_cases h : (p.1 == n)
    · rw [if_pos h]
      simp [findEntry, hlow]
    · rw [if_neg h]
      simp only [findEntry]
      have hp1 : p.1 ≠ n := by simpa using h
      have hlr : pyLower p.1 ≠ pyLower m := by
        rw [hlow]
        exact hK p (List.mem_cons_self _ _) hp1
      rw [if_neg (by simpa using hlr)]
      exact ih (fun q hq hq1 => hK q (List.mem_cons_of_mem _ hq) hq1)

/-- C6 amended: after storing v under key n, both convert_product_name_to_model
and the MCP server's _lookup_product_info return v for n and for every
case-variant of n, for every search oracle (hence without any network call) —
provided no other key already in the cache is itself a case-variant of n; a
pre-existing case-variant key can shadow the new entry (see the
counterexample). -/
theorem cache_put_get_case_variant (c : Cache) (n m : String) (v : ProductInfo)
    (search : String → Option ProductInfo)
    (hK : ∀ p ∈ c, p.1 ≠ n → pyLower p.1 ≠ pyLower n)
    (hlow : pyLower m = pyLower n) :
    convert_product_name_to_model (cachePut c n v) search m = some v
    ∧ lookup_product_info (cachePut c n v) m = some v := by
  by_cases hmn : m = n
  · subst hmn
    have h := findEntry_cachePut_self c m v
    constructor <;> simp [convert_product_name_to_model, lookup_product_info, h]
  · have hexact : findEntry (cachePut c n v) (fun key => key == m) = none := by
      apply findEntry_eq_none
      intro p hp
      rcases mem_cachePut c n v p hp with rfl | hpc
      · simpa using fun e => hmn e.symm
      · by_cases hpm : p.1 = m
        · exfalso
          have hp1 : p.1 ≠ n := by rw [hpm]; exact hmn
          exact hK p hpc hp1 (by rw [hpm, hlow])
        · simpa using hpm
    have hci := findEntry_cachePut_ci c n m v hK hlow
    constructor <;>
      simp [convert_product_name_to_model, lookup_product_info, hexact, hci]

/-- C6 witness: storing an identity into the empty cache and reading it back
under an upper-cased variant of the key succeeds through both lookup paths. -/
theorem cache_put_get_case_variant_witness :
    pyLower "SAMSUNG BLUESKY 5500" = pyLower "Samsung BlueSky 5500"
    ∧ convert_product_name_to_model
        (cachePut [] "Samsung BlueSky 5500" ⟨"AX060CG500G", "http://prod.danawa.com/info?pcode=1"⟩)
        (fun _ => none) "SAMSUNG BLUESKY 5500"
        = some ⟨"AX060CG500G", "http://prod.danawa.com/info?pcode=1"⟩
    ∧ lookup_product_info
        (cachePut [] "Samsung BlueSky 5500" ⟨"AX060CG500G", "http://prod.danawa.com/info?pcode=1"⟩)
        "SAMSUNG BLUESKY 5500"
        = some ⟨"AX060CG500G", "http://prod.danawa.com/info?pcode=1"⟩ :=
  ⟨by decide,
    (cache_put_get_case_variant [] "Samsung BlueSky 5500" "SAMSUNG BLUESKY 5500"
      ⟨"AX060CG500G", "http://prod.danawa.com/info?pcode=1"⟩ (fun _ => none)
      (by simp) (by decide)).1,
    (cache_put_get_case_variant [] "Samsung BlueSky 5500" "SAMSUNG BLUESKY 5500"
      ⟨"AX060CG500G", "http://prod.danawa.com/info?pcode=1"⟩ (fun _ => none)
      (by simp) (by decide)).2⟩

/-- C6 counterexample: with a prior entry under the key ABC, storing a new
identity under the case-variant key abc and then looking up ABC (a
case-variant of abc) returns the old identity, not the newly stored one. -/
theorem cache_case_variant_shadowed :
    pyLower "ABC" = pyLower "abc"
    ∧ convert_product_name_to_model
        (cachePut (cachePut [] "ABC" ⟨"M1", "U1"⟩) "abc" ⟨"M2", "U2"⟩)
        (fun _ => none) "ABC" = some ⟨"M1", "U1"⟩
    ∧ (⟨"M1", "U1"⟩ : ProductInfo) ≠ ⟨"M2", "U2"⟩ := by
  decide

/-! ## Theorems for C7 (optimize_image_bytes no-op branch) -/

/-- C7: whenever the input byte string fits the byte budget, optimization is
a byte-identical no-op with the same mime type, and both reported sizes equal
the input length. -/
theorem optimize_image_bytes_noop (pilEncode : Option (Nat → List Nat))
    (raw_bytes : List Nat) (mime_type : String) (max_bytes max_dimension : Nat)
    (h : raw_bytes.length ≤ max_bytes) :
    optimize_image_bytes pilEncode raw_bytes mime_type max_bytes max_dimension
      = (raw_bytes, mime_type, raw_bytes.length, raw_bytes.length) := by
  simp [optimize_image_bytes, h]

/-- C7 witness: a three-byte input under the default budget is returned
unchanged with its sizes both reported as 3. -/
theorem optimize_image_bytes_noop_witness :
    ([7, 8, 9] : List Nat).length ≤ 950000
    ∧ optimize_image_bytes none [7, 8, 9] "image/png" 950000 1024
      = ([7, 8, 9], "image/png", 3, 3) :=
  ⟨by decide, optimize_image_bytes_noop none [7, 8, 9] "image/png" 950000 1024 (by decide)⟩

/-! ## Lemmas and theorems for C8 (normalize_search_keyword) -/

theorem all_dropWhile_self (p : Char → Bool) (l : List Char) :
    (l.dropWhile p).all p = l.all p := by
  induction l with
  | nil => rfl
  | cons c rest ih =>
    by_cases h : p c
    · simp [List.dropWhile_cons, h, ih]
    · simp [List.dropWhile_cons, h]

theorem all_stripL (l : List Char) : (stripL l).all pyIsSpace = l.all pyIsSpace := by
  unfold stripL
  rw [List.all_reverse, all_dropWhile_self, List.all_reverse, all_dropWhile_self]

theorem isBlank_mk (l : List Char) : isBlank (String.mk l) = l.all pyIsSpace := rfl

theorem mem_ite_singleton {P : Prop} [Decidable P] {k n : String}
    (h : k ∈ if P then [n] else []) : k = n := by
  split at h
  · simpa using h
  · simp at h

theorem stripMk_nonblank (pre rest : List Char) (h : pre.all pyIsSpace = false) :
    isBlank (String.mk (stripL (pre ++ rest))) = false := by
  rw [isBlank_mk, all_stripL, List.all_append, h, Bool.false_and]

theorem replaceL_not_blank (pat rep : List Char) (hrep : rep.all pyIsSpace = false) :
    ∀ l : List Char, l.all pyIsSpace = false → (replaceL pat rep l).all pyIsSpace = false := by
  have main : ∀ nLen : Nat, ∀ l : List Char, l.length ≤ nLen →
      l.all pyIsSpace = false → (replaceL pat rep l).all pyIsSpace = false := by
    intro nLen
    induction nLen with
    | zero =>
      intro l hlen hl
      have : l = [] := List.eq_nil_of_length_eq_zero (Nat.le_zero.mp hlen)
      subst this
      simp at hl
    | succ k ih =>
      intro l hlen hl
      match l with
      | [] => simp at hl
      | c :: rest =>
        rw [replaceL]
        by_cases hc : (pat ≠ [] && isPrefixL pat (c :: rest)) = true
        · rw [if_pos hc]
          simp [List.all_append, hrep]
        · rw [if_neg hc]
          simp only [List.all_cons]
          by_cases hcs : pyIsSpace c
          · have hr : rest.all pyIsSpace = false := by
              simpa [List.all_cons, hcs] using hl
            have := ih rest (by simpa using Nat.le_of_succ_le_succ (by simpa using hlen)) hr
            simp [hcs, this]
          · simp [hcs]
  exact fun l => main l.length l (le_refl _)

theorem pyReplace_nonblank (s pat rep : String) (hrep : isBlank rep = false)
    (hs : isBlank s = false) : isBlank (pyReplace s pat rep) = false := by
  rw [show pyReplace s pat rep = String.mk (replaceL pat.toList rep.toList s.toList) from rfl,
    isBlank_mk]
  exact replaceL_not_blank _ _ hrep _ hs

theorem samsungVariants_nonblank (s : String) (hs : isBlank s = false) :
    ∀ k ∈ samsungVariants s, isBlank k = false := by
  intro k hk
  unfold samsungVariants at hk
  split at hk
  · split at hk
    · rcases List.mem_append.mp hk with h | h
      · rw [mem_ite_singleton h]
        exact stripMk_nonblank _ _ (by decide)
      · rw [mem_ite_singleton h]
        exact stripMk_nonblank _ _ (by decide)
    · simp at hk
  · split at hk
    · rw [mem_ite_singleton hk]
      exact pyReplace_nonblank s _ _ (by decide) hs
    · split at hk
      · rw [mem_ite_singleton hk]
        exact pyReplace_nonblank s _ _ (by decide) hs
      · simp at hk

theorem lgVariants_nonblank (s : String) :
    ∀ k ∈ lgVariants s, isBlank k = false := by
  intro k hk
  unfold lgVariants at hk
  split at hk
  · split at hk
    · rw [mem_ite_singleton hk]
      exact stripMk_nonblank _ _ (by decide)
    · simp at hk
  · simp at hk

theorem dedupGo_subset (seen : List String) (l : List String) :
    ∀ x ∈ dedupGo seen l, x ∈ l := by
  induction l generalizing seen with
  | nil => simp [dedupGo]
  | cons y ys ih =>
    intro x hx
    simp only [dedupGo] at hx
    by_cases h : y ∈ seen
    · rw [if_pos h] at hx
      exact List.mem_cons_of_mem _ (ih seen x hx)
    · rw [if_neg h] at hx
      rcases List.mem_cons.mp hx with rfl | hx2
      · exact List.mem_cons_self _ _
      · exact List.mem_cons_of_mem _ (ih _ x hx2)

theorem dedupGo_nodup (l : List String) (seen : List String) :
    (dedupGo seen l).Nodup ∧ ∀ x ∈ dedupGo seen l, x ∉ seen := by
  induction l generalizing seen with
  | nil => simp [dedupGo]
  | cons y ys ih =>
    simp only [dedupGo]
    by_cases h : y ∈ seen
    · rw [if_pos h]
      exact ih seen
    · rw [if_neg h]
      obtain ⟨hnd, hns⟩ := ih (y :: seen)
      refine ⟨List.nodup_cons.mpr ⟨fun hy => hns y hy (List.mem_cons_self _ _), hnd⟩, ?_⟩
      intro x hx
      rcases List.mem_cons.mp hx with rfl | hx2
      · exact h
      · exact fun hxs => hns x hx2 (List.mem_cons_of_mem _ hxs)

/-- C8 amended: for every input that is not empty and not whitespace-only,
normalize_search_keyword returns an ordered list whose first element is the
original input, with no blank entries and no duplicates under case-sensitive
equality.  (For a blank input the returned singleton is the blank input
itself, see the counterexample.) -/
theorem normalize_search_keyword_shape (s : String) (hs : isBlank s = false) :
    (normalize_search_keyword s).head? = some s
    ∧ (normalize_search_keyword s).Nodup
    ∧ (normalize_search_keyword s).all (fun k => !(isBlank k)) = true := by
  have hmem : ∀ k ∈ normalize_search_keyword s, isBlank k = false := by
    intro k hk
    have hk2 : k ∈ [s] ++ samsungVariants s ++ lgVariants s :=
      dedupGo_subset [] _ k hk
    simp only [List.append_assoc, List.mem_append, List.mem_singleton] at hk2
    rcases hk2 with rfl | hk2 | hk2
    · exact hs
    · exact samsungVariants_nonblank s hs k hk2
    · exact lgVariants_nonblank s k hk2
  refine ⟨?_, (dedupGo_nodup _ []).1, ?_⟩
  · show (dedupGo [] (s :: (samsungVariants s ++ lgVariants s))).head? = some s
    simp [dedupGo]
  · rw [List.all_eq_true]
    intro k hk
    simp [hmem k hk]

/-- C8 witness: a Samsung-prefixed name produces the original first, then the
two manufacturer variants, with no blanks and no duplicates. -/
theorem normalize_search_keyword_shape_witness :
    isBlank "삼성 무풍에어컨" = false
    ∧ ((normalize_search_keyword "삼성 무풍에어컨").head? = some "삼성 무풍에어컨"
      ∧ (normalize_search_keyword "삼성 무풍에어컨").Nodup
      ∧ (normalize_search_keyword "삼성 무풍에어컨").all (fun k => !(isBlank k)) = true) :=
  ⟨by decide, normalize_search_keyword_shape "삼성 무풍에어컨" (by decide)⟩

/-- C8 counterexample: the empty input produces a list whose only entry is
the empty string, so the output is not free of empty/blank entries. -/
theorem normalize_search_keyword_blank_entry :
    normalize_search_keyword "" = [""] ∧ isBlank "" = true := by
  decide

/-! ## new_single_page_crawler.py: collect_images and the crawl

The detail page is modelled as its content containers (elements whose id
starts with partContents_) each holding img tags with their three relevant
attributes; browser launch, context creation and navigation are oracles, and
urljoin is an oracle as well since its semantics live in urllib. -/

/-- An img element inside a content container: its src, data-src and srcset
attributes (none models a missing attribute). -/
structure ImgTag where
  src : Option String
  dataSrc : Option String
  srcset : Option String
  deriving DecidableEq, Repr

/-- A loaded detail page: its address and the img tags of each content
container, in document order. -/
structure PageModel where
  url : String
  containers : List (List ImgTag)
  deriving DecidableEq, Repr

/-- Python truthiness of an optional attribute string: None and the empty
string are both falsy. -/
def pyTruthy : Option String → Bool
  | none => false
  | some s => s != ""

/-- The per-img source selection of collect_images (lines 61-70): src, else a
truthy data-src, else choose_from_srcset of a truthy srcset. -/
def pickImgSrc (im : ImgTag) : Option String :=
  let src := im.src
  let src := if pyTruthy src then src else
    match im.dataSrc with
    | some ds => if ds != "" then some ds else src
    | none => src
  if pyTruthy src then src else
    match im.srcset with
    | some ss => if ss != "" then some (choose_from_srcset ss) else src
    | none => src

/-- Source function collect_images (lines 55-73): for each img of each
content container, a truthy chosen source is resolved against the page URL
(urljoin supplied as an oracle) and appended in discovery order. -/
def collect_images (joinUrl : String → String → String) (page : PageModel) : List String :=
  (page.containers.map (fun imgs =>
    imgs.filterMap (fun im =>
      match pickImgSrc im with
      | some s => if s != "" then some (joinUrl page.url s) else none
      | none => none))).flatten

/-- Navigation outcome of the relaxed-then-strict goto of
_crawl_single_page_internal (lines 107-119): the domcontentloaded attempt
succeeds, or its fallback load attempt succeeds, or both fail. -/
inductive NavOutcome where
  | loadedFirstTry (page : PageModel)
  | loadedOnRetry (page : PageModel)
  | failed (err : String)
  deriving DecidableEq, Repr

/-- Source function _crawl_single_page_internal (lines 77-184): browser
launch, context/page creation and navigation each convert an underlying
failure into a labelled exception; a page with zero collected images only
prints a warning and continues; each per-image download writes a file to
outdir and a download failure is printed and skipped, so downloads never
influence the outcome.  The function body ends without a return statement:
its only success value is None, modelled as PUnit — no list of image assets
is produced. -/
def crawlSinglePageInternal (launch ctxNew : Except String Unit)
    (nav : NavOutcome) (joinUrl : String → String → String) :
    Except String PUnit :=
  match launch with
  | Except.error e => Except.error ("브라우저 실행 실패: " ++ e)
  | Except.ok _ =>
    match ctxNew with
    | Except.error e => Except.error ("브라우저 컨텍스트 생성 실패: " ++ e)
    | Except.ok _ =>
      match nav with
      | NavOutcome.failed e => Except.error ("페이지 로딩 실패: " ++ e)
      | NavOutcome.loadedFirstTry page =>
        let _imgs := collect_images joinUrl page
        Except.ok PUnit.unit
      | NavOutcome.loadedOnRetry page =>
        let _imgs := collect_images joinUrl page
        Except.ok PUnit.unit

/-- Source function crawl_single_page (lines 188-243): resolve and create the
output directory (failure becomes a labelled exception), then run the
internal crawl — on win32 inside a fresh event loop on a worker thread whose
result and exceptions propagate unchanged, elsewhere directly; both paths
return the internal crawl's None. -/
def crawl_single_page (mkdirRes : Except String Unit)
    (launch ctxNew : Except String Unit) (nav : NavOutcome)
    (joinUrl : String → String → String) : Except String PUnit :=
  match mkdirRes with
  | Except.error e => Except.error ("디렉토리 생성 실패: " ++ e)
  | Except.ok _ => crawlSinglePageInternal launch ctxNew nav joinUrl

/-- C2: on a successfully opened detail page whose single content container
holds zero images, the crawl completes without raising — but its success
value is None (PUnit), never a list of image assets, and the collected URL
list is empty only internally.  This exhibits the divergence from the claimed
collect(detailUrl) returning ImageAsset lists. -/
theorem crawl_zero_images_completes :
    collect_images (fun _ s => s)
        { url := "http://prod.danawa.com/info?pcode=28981938", containers := [[]] } = []
    ∧ crawl_single_page (Except.ok ()) (Except.ok ()) (Except.ok ())
        (NavOutcome.loadedFirstTry
          { url := "http://prod.danawa.com/info?pcode=28981938", containers := [[]] })
        (fun _ s => s)
      = Except.ok PUnit.unit :=
  ⟨rfl, rfl⟩

/-! ## compare_products.py: compare_products_logic (lines 19-139)

The per-item error entries are modelled structurally (the source renders them
into Korean detail strings that are joined into the returned message); the
images payload produced by the crawl call is opaque here. -/

/-- Opaque stand-in for one per-image payload dictionary. -/
abbrev ImageData : Type := String

/-- One succeeded product of the comparison result. -/
structure ProductEntry where
  product_name : String
  model_name : String
  url : String
  image_count : Nat
  images : List ImageData
  deriving DecidableEq, Repr

/-- One failed batch item: the name whose model could not be found, or the
name together with the exception text raised while processing it. -/
inductive ItemError where
  | notFound (name : String)
  | processing (name : String) (err : String)
  deriving DecidableEq, Repr

/-- HTTPException raised by compare_products_logic: 400 on input validation,
500 (carrying the accumulated per-item failures) when every item failed. -/
inductive HTTPErrorModel where
  | badRequest (detail : String)
  | serverError (errors : List ItemError)
  deriving DecidableEq, Repr

/-- Accumulator of the per-product loop: succeeded products, error entries,
and the global product_name_to_model dictionary being written through. -/
structure LoopState where
  products : List ProductEntry
  errors : List ItemError
  cache : Cache
  deriving DecidableEq, Repr

/-- Successful return payload: the source also renders message and
comparison_hint texts from products and errors; they carry no further data. -/
structure CompareOk where
  products : List ProductEntry
  total_products : Nat
  success : Bool
  errors : List ItemError
  deriving DecidableEq, Repr

/-- Loop body of compare_products_logic (lines 46-88): strip the name and
silently skip it when blank; resolve it (an unresolvable name appends an
error entry); store the mapping in the cache; crawl the product URL, turning
a raised exception into an error entry and a result into a succeeded
product. -/
def processItem (search : String → Option ProductInfo)
    (crawlCall : String → Except String (List ImageData))
    (st : LoopState) (raw_name : String) : LoopState :=
  let product_name := pyStrip raw_name
  if product_name == "" then st
  else
    match convert_product_name_to_model st.cache search product_name with
    | none => { st with errors := st.errors ++ [ItemError.notFound product_name] }
    | some result =>
      let st2 := { st with cache := cachePut st.cache product_name result }
      match crawlCall result.url with
      | Except.error e =>
        { st2 with errors := st2.errors ++ [ItemError.processing product_name e] }
      | Except.ok images_data =>
        { st2 with products := st2.products ++ [{
            product_name := product_name,
            model_name := result.model,
            url := result.url,
            image_count := images_data.length,
            images := images_data }] }

/-- Post-loop part of compare_products_logic (lines 90-139): HTTP 500 when no
product succeeded, otherwise the success payload. -/
def compareFinish (st : LoopState) : Except HTTPErrorModel CompareOk :=
  if st.products.isEmpty then
    Except.error (HTTPErrorModel.serverError st.errors)
  else
    Except.ok {
      products := st.products,
      total_products := st.products.length,
      success := true,
      errors := st.errors }

/-- Source function compare_products_logic: validate that at least two names
were given, fold the loop body over the batch, and finish.  The resolution
oracle stands for search_danawa_and_extract_model inside
convert_product_name_to_model, and crawlCall for the await of
crawl_single_page(product_url) at line 70. -/
def compare_products_logic (search : String → Option ProductInfo)
    (crawlCall : String → Except String (List ImageData))
    (cache0 : Cache) (product_names : List String) :
    Except HTTPErrorModel CompareOk :=
  if product_names = [] ∨ product_names.length < 2 then
    Except.error (HTTPErrorModel.badRequest "최소 2개 이상의 제품명을 입력해주세요.")
  else
    compareFinish (product_names.foldl (processItem search crawlCall)
      { products := [], errors := [], cache := cache0 })

/-- What the call at compare_products.py line 70 actually does:
crawl_single_page (new_single_page_crawler.py line 188) requires the two
positional parameters url and outdir, but is invoked with the single argument
product_url, so Python raises TypeError at the call site for every resolved
product. -/
def crawlCallAsWritten : String → Except String (List ImageData) :=
  fun _ => Except.error
    "TypeError: crawl_single_page() missing 1 required positional argument: outdir"

/-- A resolution oracle for the failing batch: names A and B resolve, C does
not. -/
def searchResolvesAB : String → Option ProductInfo :=
  fun kw =>
    if kw == "A" then some ⟨"MODEL-A", "http://prod.danawa.com/info?pcode=11"⟩
    else if kw == "B" then some ⟨"MODEL-B", "http://prod.danawa.com/info?pcode=22"⟩
    else none

/-- C5: evaluating compare_products_logic at a 3-name batch where exactly one
name fails resolution: because the loop calls the two-parameter
crawl_single_page with one argument, both resolved items fail with TypeError,
no item succeeds, and the call raises HTTP 500 — instead of returning 2
succeeded items and exactly 1 error entry as claimed. -/
theorem compare_batch_raises_as_written :
    compare_products_logic searchResolvesAB crawlCallAsWritten [] ["A", "B", "C"]
      = Except.error (HTTPErrorModel.serverError
          [ItemError.processing "A"
            "TypeError: crawl_single_page() missing 1 required positional argument: outdir",
           ItemError.processing "B"
            "TypeError: crawl_single_page() missing 1 required positional argument: outdir",
           ItemError.notFound "C"]) := by
  rfl

/-! ## Theorems for C9 (blank batch entries are skipped) -/

theorem processItem_blank (search : String → Option ProductInfo)
    (crawlCall : String → Except String (List ImageData))
    (st : LoopState) (n : String) (h : (pyStrip n == "") = true) :
    processItem search crawlCall st n = st := by
  unfold processItem
  simp [h]

theorem foldl_processItem_filter (search : String → Option ProductInfo)
    (crawlCall : String → Except String (List ImageData))
    (names : List String) (st : LoopState) :
    names.foldl (processItem search crawlCall) st
      = (names.filter (fun n => pyStrip n != "")).foldl
          (processItem search crawlCall) st := by
  induction names generalizing st with
  | nil => rfl
  | cons n rest ih =>
    by_cases h : (pyStrip n != "") = true
    · simp only [List.filter_cons, h, if_pos, List.foldl_cons]
      exact ih _
    · have hb : (pyStrip n == "") = true := by
        simpa [bne] using h
      simp only [List.filter_cons, h, List.foldl_cons,
        processItem_blank search crawlCall st n hb]
      simpa using ih st

/-- C9: for every accepted batch (at least two names), blank or
whitespace-only entries are silently skipped — the result is computed from
exactly the non-blank entries, so a blank entry contributes neither a
succeeded product nor an error entry.  (The MCP server additionally drops
blank entries before calling its loop, at mcp_server.py line 368.) -/
theorem compare_products_skips_blanks (search : String → Option ProductInfo)
    (crawlCall : String → Except String (List ImageData))
    (cache0 : Cache) (names : List String) (h : 2 ≤ names.length) :
    compare_products_logic search crawlCall cache0 names
      = compareFinish ((names.filter (fun n => pyStrip n != "")).foldl
          (processItem search crawlCall)
          { products := [], errors := [], cache := cache0 }) := by
  unfold compare_products_logic
  rw [if_neg (by
    rintro (rfl | hlt)
    · simp at h
    · omega)]
  rw [foldl_processItem_filter]

/-- C9 witness: a two-name batch whose first entry is whitespace-only is
processed exactly as the one-element filtered batch. -/
theorem compare_products_skips_blanks_witness :
    2 ≤ (["   ", "A"] : List String).length
    ∧ compare_products_logic (fun _ => none) (fun _ => Except.ok []) [] ["   ", "A"]
      = compareFinish (((["   ", "A"] : List String).filter (fun n => pyStrip n != "")).foldl
          (processItem (fun _ => none) (fun _ => Except.ok []))
          { products := [], errors := [], cache := [] }) :=
  ⟨by decide,
    compare_products_skips_blanks (fun _ => none) (fun _ => Except.ok []) [] ["   ", "A"]
      (by decide)⟩

end SWMCP
